import Mathlib

/-!
Shallow embedding of the JumboMem paging engine (C sources) in Lean 4,
together with theorems settling the claims about its replacement policies,
page table, interception layer, fault handler and sizing formulas.

Conventions used throughout:
* machine integers are modelled as `Nat`; where C truncates (a `uint32_t`
  page-number field, `unsigned long` products) we reduce modulo `2^32`
  or `2^64` explicitly;
* C arrays whose size is only known at run time are modelled as total
  functions `Nat → _` updated pointwise; the 4-element `class_size` array of
  the NRU policy, whose size is the literal 4 in the source, is modelled as
  `Fin 4 → Nat` so that the out-of-bounds read `class_size[4]` becomes an
  explicit error value;
* `random()` draws are supplied by the caller (a single value or a list);
* fatal `jm_abort` paths are `Except` errors.
-/

namespace JumboMem

/-- `PROT_READ` from `<sys/mman.h>`. -/
def PROT_READ : Nat := 1

/-- `PROT_WRITE` from `<sys/mman.h>`. -/
def PROT_WRITE : Nat := 2

/-- `PROT_READ|PROT_WRITE`, the protection all policies except read-only NRU use. -/
def PROT_RW : Nat := PROT_READ + PROT_WRITE

/-- `BIGPRIME1` from the page-replacement sources. -/
def BIGPRIME1 : Nat := 34359738641

/-- `BIGPRIME2` from the page-replacement sources. -/
def BIGPRIME2 : Nat := 1152921504606847229

/-- `HASH_TABLE_SIZE` from `pagetable.c` / `pagereplace_nru.c`. -/
def HASH_TABLE_SIZE : Nat := 1000003

/-- Modulus of `uint32_t`. -/
def U32 : Nat := 2 ^ 32

/-- Modulus of `unsigned long` / `size_t` (LP64). -/
def U64 : Nat := 2 ^ 64

/-- The `(uint32_t)` cast applied when a page number is stored in a 32-bit slot. -/
def toU32 (n : Nat) : Nat := n % U32

/-- `((random() + BIGPRIME1) * BIGPRIME2)` evaluated in 64-bit arithmetic;
all three random policies scale the `random()` draw `r` this way before
reducing it modulo a table size. -/
def randScale (r : Nat) : Nat := ((r + BIGPRIME1) * BIGPRIME2) % U64

/-- The out parameters of `jm_find_replacement_page`: the protection for the
newly faulted page, the victim page number (`none` = `*evictable_page = NULL`),
and the cleanliness flag (`none` = the `*clean` out-parameter was not written). -/
structure FindResult where
  newprot : Nat
  victim : Option Nat
  clean : Option Bool
deriving Repr, DecidableEq

/-! ## FIFO replacement (`pagereplace_fifo.c`) -/

/-- State of the FIFO policy: the `used_pages` circular array (modelled as a
total function, entries at indices `≥ num_used` are junk), the count of valid
entries, and the eviction cursor. -/
structure FifoState where
  used_pages : Nat → Nat
  num_used : Nat
  next_evict : Nat

/-- `jm_initialize_pagereplace` of the FIFO policy: empty array, zero cursor. -/
def fifoInit : FifoState :=
  { used_pages := fun _ => 0, num_used := 0, next_evict := 0 }

/-- `jm_find_replacement_page` of `pagereplace_fifo.c`. `total_pages` is the
local page budget `N`, `p` the page number of the faulted page
(`GET_PAGE_NUMBER(faulted_page)`). -/
def fifoFind (total_pages : Nat) (s : FifoState) (p : Nat) : FifoState × FindResult :=
  if s.num_used < total_pages then
    ({ used_pages := fun i => if i = s.num_used then toU32 p else s.used_pages i,
       num_used := s.num_used + 1,
       next_evict := s.next_evict },
     { newprot := PROT_RW, victim := none, clean := some false })
  else
    ({ used_pages := fun i => if i = s.next_evict then toU32 p else s.used_pages i,
       num_used := s.num_used,
       next_evict := (s.next_evict + 1) % total_pages },
     { newprot := PROT_RW, victim := some (s.used_pages s.next_evict), clean := some false })

/-- Run the FIFO policy over a workload of faulted pages, collecting the
victims (page numbers) in the order they are returned. -/
def fifoRun (total_pages : Nat) (s : FifoState) : List Nat → FifoState × List Nat
  | [] => (s, [])
  | p :: ps =>
    let c := fifoFind total_pages s p
    let rest := fifoRun total_pages c.1 ps
    match c.2.victim with
    | none => rest
    | some v => (rest.1, v :: rest.2)

/-- The FIFO ring-buffer invariant after the pages `ps.take t` have been
recorded: `num_used` tracks the fill level, `next_evict` is the eviction
count modulo `N`, and for every recording event `j` still resident
(`t - N ≤ j < t`) slot `j % N` holds that event's page number. -/
abbrev FifoInv (N : Nat) (ps : List Nat) (t : Nat) (s : FifoState) : Prop :=
  s.num_used = min t N ∧
  s.next_evict = (t - N) % N ∧
  ∀ j, j < t → t ≤ j + N → s.used_pages (j % N) = toU32 (ps.getD j 0)

/-! ## Random replacement (`pagereplace_random.c`) -/

/-- State of the random policy: `prevpage` holds the page number of the
previously faulted page (`NULL` = `none`; the C variable stores the rounded
fault address `memregion + pagenum*pagesize`, which determines the page
number uniquely). -/
structure RandomState where
  prevpage : Option Nat
  used_pages : Nat → Nat
  num_used : Nat

/-- `jm_initialize_pagereplace` of the random policy. -/
def randomInit : RandomState :=
  { prevpage := none, used_pages := fun _ => 0, num_used := 0 }

/-- The `do { randnum = …; *evictable_page = …; } while (*evictable_page == prevpage)`
loop of `pagereplace_random.c`, consuming one `random()` draw per iteration.
Returns the chosen index into `used_pages`, or `none` if the supplied list of
draws is exhausted first (the C loop would keep calling `random()`). -/
def randomPick (s : RandomState) : List Nat → Option Nat
  | [] => none
  | r :: rs =>
    let randnum := randScale r % s.num_used
    if some (s.used_pages randnum) = s.prevpage then randomPick s rs
    else some randnum

/-- `jm_find_replacement_page` of `pagereplace_random.c`, with the `random()`
draws supplied as a list. `none` models the (unreached in practice)
exhaustion of the supplied draws inside the do/while loop. -/
def randomFind (total_pages : Nat) (s : RandomState) (p : Nat) (draws : List Nat) :
    Option (RandomState × FindResult) :=
  if s.num_used < total_pages then
    some ({ prevpage := s.prevpage,
            used_pages := fun i => if i = s.num_used then toU32 p else s.used_pages i,
            num_used := s.num_used + 1 },
          { newprot := PROT_RW, victim := none, clean := some false })
  else
    match randomPick s draws with
    | none => none
    | some randnum =>
      some ({ prevpage := some p,
              used_pages := fun i => if i = randnum then toU32 p else s.used_pages i,
              num_used := s.num_used },
            { newprot := PROT_RW, victim := some (s.used_pages randnum), clean := some false })

/-! ## Page table (`pagetable.c`) -/

/-- The fatal (`jm_abort`) exits of the page-table code. -/
inductive PtErr where
  /-- "Attempted to delete nonexistent page … (empty chain)" -/
  | deleteEmptyChain : PtErr
  /-- "Two page-table deletions with no intervening insertion" -/
  | doubleDelete : PtErr
  /-- "Attempted to delete nonexistent page …" (chain searched, page absent) -/
  | deleteMissing : PtErr
  /-- "A page table with … entries overflowed" -/
  | overflow : PtErr
deriving Repr, DecidableEq

/-- `hash_page_number`: `(((unsigned long)pagenum + BIGPRIME2) * BIGPRIME1) % HASH_TABLE_SIZE`,
with the product taken in 64-bit arithmetic. -/
def hashPage (pagenum : Nat) : Nat :=
  ((pagenum + BIGPRIME2) * BIGPRIME1) % U64 % HASH_TABLE_SIZE

/-- A `PAGE_TABLE`.  A bucket holds a pointer to a `PAGE_TABLE_ENTRY`, i.e. to a
slot of the dense `used_pages` array; chains are therefore lists of slot
indices, and the dense array itself is a total function from slot index to
the `pagenum` stored there (payload omitted: all page-table clients in the
claims use a zero-byte payload). `dead_bucket` holds the detached slot's
index, `none` when the dead bucket is empty. -/
structure PageTable where
  used_pages : Nat → Nat
  page_hash : Nat → List Nat
  dead_bucket : Option Nat
  num_used : Nat
  table_size : Nat

/-- A freshly created page table (`jm_create_page_table`) with the given
capacity: empty hash, no dead bucket, nothing used. -/
def ptCreate (table_size : Nat) : PageTable :=
  { used_pages := fun _ => 0, page_hash := fun _ => [], dead_bucket := none,
    num_used := 0, table_size := table_size }

/-- Search a chain for the bucket whose entry stores `pagenum`, removing it;
returns the remaining chain and the removed bucket's slot, or `none` if no
bucket matches (helper for the chain-walk in `delete_page_by_number`). -/
def chainRemove (up : Nat → Nat) (pagenum : Nat) : List Nat → Option (List Nat × Nat)
  | [] => none
  | i :: rest =>
    if up i = pagenum then some (rest, i)
    else
      match chainRemove up pagenum rest with
      | none => none
      | some (rest2, j) => some (i :: rest2, j)

/-- `delete_page_by_number` from `pagetable.c`: aborts on an empty chain, then
on a non-empty dead bucket, then searches the chain; the removed bucket
becomes the dead bucket. -/
def delete_page_by_number (pt : PageTable) (pagenum : Nat) : Except PtErr PageTable :=
  match pt.page_hash (hashPage pagenum) with
  | [] => .error .deleteEmptyChain
  | _ :: _ =>
    if pt.dead_bucket.isSome then .error .doubleDelete
    else
      match chainRemove pt.used_pages pagenum (pt.page_hash (hashPage pagenum)) with
      | none => .error .deleteMissing
      | some (rest, i) =>
        .ok { pt with
              page_hash := fun c => if c = hashPage pagenum then rest else pt.page_hash c,
              dead_bucket := some i }

/-- `insert_pte`: push the bucket for `slot` (holding the entry whose pagenum
was just written) onto its chain, consuming the dead bucket if present. -/
def insert_pte (pt : PageTable) (slot : Nat) : PageTable :=
  { pt with
    page_hash := fun c =>
      if c = hashPage (pt.used_pages slot) then slot :: pt.page_hash c else pt.page_hash c,
    dead_bucket := none }

/-- `jm_page_table_insert` with the page's number already extracted
(`GET_PAGE_NUMBER(address)`); the `pagenum` field is `uint32_t`, hence the
truncation.  Aborts when the table is full; otherwise fills the dead bucket's
entry or the next fresh slot. -/
def jm_page_table_insert (pt : PageTable) (pagenum : Nat) : Except PtErr PageTable :=
  if pt.num_used = pt.table_size then .error .overflow
  else
    let slot := match pt.dead_bucket with
      | some i => i
      | none => pt.num_used
    let pt1 : PageTable :=
      { pt with used_pages := fun i => if i = slot then toU32 pagenum else pt.used_pages i }
    let pt2 := insert_pte pt1 slot
    .ok { pt2 with num_used := pt2.num_used + 1 }

/-- `pt->num_used--` on a `size_t` (wraps at zero). -/
def numUsedDec (n : Nat) : Nat := if n = 0 then U64 - 1 else n - 1

/-- `jm_page_table_delete` with the page's number already extracted. -/
def jm_page_table_delete (pt : PageTable) (pagenum : Nat) : Except PtErr PageTable :=
  match delete_page_by_number pt pagenum with
  | .error e => .error e
  | .ok pt1 => .ok { pt1 with num_used := numUsedDec pt1.num_used }

/-- `find_page_by_number`, returning the slot index of the entry for
`pagenum`, or `none` if the page is not resident (this is what
`jm_page_table_find` exposes as a payload pointer / `NULL`). -/
def find_page_by_number (pt : PageTable) (pagenum : Nat) : Option Nat :=
  (pt.page_hash (hashPage pagenum)).find? (fun i => pt.used_pages i = pagenum)

/-- `jm_page_table_offset`: map a dense index to the pagenum stored there;
aborts (`none` here) when the index is out of range. -/
def jm_page_table_offset (pt : PageTable) (index : Nat) : Option Nat :=
  if index < pt.num_used then some (pt.used_pages index) else none

/-! ## NRE replacement (`pagereplace_nre.c`) -/

/-- State of the not-recently-evicted policy: a zero-payload page table plus
the bounded queue `evicted_pages` of recently selected dense indices.
`evict_len` and `max_retries` are configuration constants
(`JM_NRE_ENTRIES`/`JM_NRE_RETRIES`, defaults 32 and 5). -/
structure NreState where
  pt : PageTable
  num_used : Nat
  evicted_pages : Nat → Nat
  evict_head : Nat
  evict_tail : Nat

/-- `jm_initialize_pagereplace` of the NRE policy: fresh page table, empty
queue, `evicted_pages[0] = (uint32_t)(-1)`. -/
def nreInit (total_pages : Nat) : NreState :=
  { pt := ptCreate total_pages, num_used := 0,
    evicted_pages := fun i => if i = 0 then U32 - 1 else 0,
    evict_head := 0, evict_tail := 0 }

/-- The linear search `for (i=evict_head; i!=evict_tail; i=(i+1)%evict_len)`
over the eviction queue: returns the index `i` at which the loop stopped
(either the first slot holding `randnum`, or `evict_tail`).  `fuel` bounds the
circular walk (the C loop visits at most `evict_len` slots). -/
def nreQueueScan (s : NreState) (evict_len randnum : Nat) : Nat → Nat → Nat
  | i, 0 => i
  | i, fuel + 1 =>
    if i = s.evict_tail then i
    else if s.evicted_pages i = randnum then i
    else nreQueueScan s evict_len randnum ((i + 1) % evict_len) fuel

/-- The NRE retry loop (`while (retries <= max_retries) { … }`), consuming one
`random()` draw per iteration; returns the selected dense index, or `none` if
the supplied draws run out.  A selection is poor when the slot at which the
queue scan stopped holds `randnum`; `retries` is incremented only when the
scan broke inside the window (stop position ≠ `evict_tail`), exactly as the
`break` inside the C `for` does.  When the `while` condition fails the loop
exits with the draw of its final iteration (`last`). -/
def nrePickLoop (s : NreState) (evict_len max_retries : Nat) :
    Nat → Option Nat → List Nat → Option Nat
  | retries, last, draws =>
    if retries ≤ max_retries then
      match draws with
      | [] => none
      | r :: rs =>
        let randnum := randScale r % s.num_used
        let i := nreQueueScan s evict_len randnum s.evict_head (evict_len + 1)
        if s.evicted_pages i = randnum then
          nrePickLoop s evict_len max_retries
            (if i = s.evict_tail then retries else retries + 1) (some randnum) rs
        else some randnum
    else last

/-- The fatal exits reachable from the NRE miss path: its own page-table calls
plus `jm_page_table_offset` on an out-of-range index. -/
inductive NreErr where
  | ptErr : PtErr → NreErr
  | offsetOutOfBounds : NreErr
  | drawsExhausted : NreErr
deriving Repr, DecidableEq

/-- Record the selected dense index in the eviction queue:
`evicted_pages[evict_tail] = randnum`, advance the tail, and advance the
head too when the queue just became full. -/
def nreRecordSelection (s : NreState) (evict_len randnum : Nat) : NreState :=
  if (s.evict_tail + 1) % evict_len = s.evict_head then
    { s with
      evicted_pages := fun i => if i = s.evict_tail then randnum else s.evicted_pages i,
      evict_tail := (s.evict_tail + 1) % evict_len,
      evict_head := (s.evict_head + 1) % evict_len }
  else
    { s with
      evicted_pages := fun i => if i = s.evict_tail then randnum else s.evicted_pages i,
      evict_tail := (s.evict_tail + 1) % evict_len }

/-- `jm_find_replacement_page` of `pagereplace_nre.c`.  `p` is the faulted
page's number; `draws` supplies the `random()` values. -/
def nreFind (total_pages evict_len max_retries : Nat) (s : NreState) (p : Nat)
    (draws : List Nat) : Except NreErr (NreState × FindResult) :=
  if s.num_used < total_pages then
    match jm_page_table_insert s.pt p with
    | .error e => .error (.ptErr e)
    | .ok pt1 =>
      .ok ({ s with pt := pt1, num_used := s.num_used + 1 },
           { newprot := PROT_RW, victim := none, clean := some false })
  else
    match nrePickLoop s evict_len max_retries 0 none draws with
    | none => .error .drawsExhausted
    | some randnum =>
      match jm_page_table_offset s.pt randnum with
      | none => .error .offsetOutOfBounds
      | some pagenum =>
        match jm_page_table_delete (nreRecordSelection s evict_len randnum).pt pagenum with
        | .error e => .error (.ptErr e)
        | .ok pt1 =>
          match jm_page_table_insert pt1 p with
          | .error e => .error (.ptErr e)
          | .ok pt2 =>
            .ok ({ nreRecordSelection s evict_len randnum with pt := pt2 },
                 { newprot := PROT_RW, victim := some pagenum, clean := some false })

/-! ## NRU replacement (`pagereplace_nru.c`) -/

/-- A `PAGE_TABLE_ENTRY` of the NRU policy: page number (`uint32_t`) plus the
referenced and modified bits (stored as `int` 0/1 in C). -/
structure NruPte where
  pagenum : Nat
  referenced : Bool
  modified : Bool
deriving Repr, DecidableEq

/-- `NRU_CLASS(PTE)` = `referenced*2 + modified`. -/
def nruClass (pte : NruPte) : Nat :=
  (if pte.referenced then 2 else 0) + (if pte.modified then 1 else 0)

/-- State of the NRU policy.  `used_pages` is the dense PTE array (slots
`≥ num_used` are junk), `page_hash` maps a hash bucket to the chain of slot
indices (the C buckets hold PTE pointers), `pages_by_class` is the side array
of slot indices ideally sorted by class, and `class_size` is the 4-element
array of per-class counts — `Fin 4 → Nat` so an access at index 4 is
ill-typed rather than silently read. -/
structure NruState where
  used_pages : Nat → NruPte
  page_hash : Nat → List Nat
  pages_by_class : Nat → Nat
  sorted_by_class : Bool
  class_size : Fin 4 → Nat
  num_used : Nat
  dead_bucket : Option Nat
  prev_rbit_clear_time : Nat

/-- `jm_initialize_pagereplace` of the NRU policy (data-structure content
only): zeroed hash, `sorted_by_class = 0`, all class sizes 0, nothing used;
`now0` is `jm_current_time()/1000` at initialization. -/
def nruInit (now0 : Nat) : NruState :=
  { used_pages := fun _ => { pagenum := 0, referenced := false, modified := false },
    page_hash := fun _ => [], pages_by_class := fun _ => 0,
    sorted_by_class := false, class_size := fun _ => 0,
    num_used := 0, dead_bucket := none, prev_rbit_clear_time := now0 }

/-- `a - b` on `uint64_t` (wraps), for inputs already reduced mod `2^64`. -/
def sub64 (a b : Nat) : Nat := (a + U64 - b % U64) % U64

/-- `maybe_clear_reference_bits`: every `interval` milliseconds clear the
referenced bit of every used page and mark the side array unsorted.
`now_ms` is `jm_current_time()/1000`.  Note that `class_size` is NOT
recomputed here. -/
def maybeClearReferenceBits (interval : Nat) (s : NruState) (now_ms : Nat) : NruState :=
  if sub64 now_ms s.prev_rbit_clear_time < interval then s
  else
    { s with
      used_pages := fun i =>
        if i < s.num_used then { s.used_pages i with referenced := false }
        else s.used_pages i,
      sorted_by_class := false,
      prev_rbit_clear_time := now_ms }

/-- One step of the bucket-sort placement loop of `sort_pages_by_class`:
place slot `i` of `used_pages` at the next offset of its class. -/
def nruPlaceStep (up : Nat → NruPte) (st : (Nat → Nat) × (Nat → Nat)) (i : Nat) :
    (Nat → Nat) × (Nat → Nat) :=
  let c := nruClass (up i)
  let pos := st.2 c
  (fun j => if j = pos then i else st.1 j,
   fun d => if d = c then st.2 d + 1 else st.2 d)

/-- `sort_pages_by_class`: no-op when already sorted; otherwise recount
`class_size` from the entries currently referenced by `pages_by_class`,
derive the per-class start offsets, and re-place `used_pages[0..num_used)`
bucket-by-bucket. -/
def sortPagesByClass (s : NruState) : NruState :=
  if s.sorted_by_class then s
  else
    let cs : Nat → Nat := fun c =>
      ((List.range s.num_used).filter
        (fun i => nruClass (s.used_pages (s.pages_by_class i)) = c)).length
    let off0 : Nat → Nat := fun c =>
      if c = 0 then 0
      else if c = 1 then cs 0
      else if c = 2 then cs 1 + cs 0
      else cs 2 + (cs 1 + cs 0)
    let fin := (List.range s.num_used).foldl (nruPlaceStep s.used_pages) (s.pages_by_class, off0)
    { s with
      pages_by_class := fin.1,
      class_size := fun c => cs c.val,
      sorted_by_class := true }

/-- The `for (class=0; class<4 && class_size[class]==0; class++)` scan:
index of the first non-empty class, or 4 when every recorded size is zero. -/
def scanClass (cs : Fin 4 → Nat) : Nat :=
  if cs 0 ≠ 0 then 0
  else if cs 1 ≠ 0 then 1
  else if cs 2 ≠ 0 then 2
  else if cs 3 ≠ 0 then 3
  else 4

/-- Fatal/undefined exits of the NRU miss path. -/
inductive NruErr where
  /-- The class scan ran off the end of `class_size`; the C code then reads
  `class_size[4]`, one element past the end of the 4-element array, and
  reduces the scaled `random()` draw modulo that indeterminate value. -/
  | classSizeOutOfBounds : NruErr
  /-- One of the page-table aborts, shared with `pagetable.c`. -/
  | ptErr : PtErr → NruErr
deriving Repr, DecidableEq

/-- NRU's private `delete_page_by_number` (same logic as `pagetable.c`). -/
def nruDeletePage (s : NruState) (pagenum : Nat) : Except NruErr NruState :=
  let chain_num := hashPage pagenum
  match s.page_hash chain_num with
  | [] => .error (.ptErr .deleteEmptyChain)
  | _ :: _ =>
    if s.dead_bucket.isSome then .error (.ptErr .doubleDelete)
    else
      match chainRemove (fun i => (s.used_pages i).pagenum) pagenum (s.page_hash chain_num) with
      | none => .error (.ptErr .deleteMissing)
      | some (rest, i) =>
        .ok { s with
              page_hash := fun c => if c = chain_num then rest else s.page_hash c,
              dead_bucket := some i }

/-- The common tail of `jm_find_replacement_page` (NRU): store the newly
faulted page in the chosen PTE slot (`pframe->pagenum`/`referenced`), insert
it into the hash (consuming the dead bucket), mark the side array unsorted,
and set the modified bit according to `nru_readwrite`. -/
def nruRecordNewPage (rw : Bool) (s : NruState) (slot p : Nat) : NruState :=
  let pnum := toU32 p
  let chain_num := hashPage pnum
  { s with
    used_pages := fun i =>
      if i = slot then { pagenum := pnum, referenced := true, modified := rw }
      else s.used_pages i,
    page_hash := fun c => if c = chain_num then slot :: s.page_hash c else s.page_hash c,
    dead_bucket := none,
    sorted_by_class := false }

/-- The fill branch of NRU's `jm_find_replacement_page`: take the next fresh
PTE frame (`pframe = &used_pages[num_used]`), append it to `pages_by_class`,
bump `num_used`, and record the faulted page in it; no victim, and the
`*clean` out-parameter is left unwritten. -/
def nruFillPath (rw : Bool) (s : NruState) (p newprot : Nat) : NruState × FindResult :=
  (nruRecordNewPage rw
    { s with
      pages_by_class := fun j => if j = s.num_used then s.num_used else s.pages_by_class j,
      num_used := s.num_used + 1 }
    s.num_used p,
   { newprot := newprot, victim := none, clean := none })

/-- Select the frame at offset `off` of `pages_by_class`; when its actual
class is not `cls` (the side index is stale), re-sort and retry the same
offset once.  Returns the (possibly re-sorted) state and the chosen slot. -/
def nruSelectFrame (s : NruState) (off cls : Nat) : NruState × Nat :=
  if nruClass (s.used_pages (s.pages_by_class off)) ≠ cls then
    (sortPagesByClass s, (sortPagesByClass s).pages_by_class off)
  else (s, s.pages_by_class off)

/-- Evict the selected frame: report its page as the victim and its
non-modified bit as `*clean`, delete it from the hash, and record the newly
faulted page in the freed frame. -/
def nruEvictFrom (rw : Bool) (p : Nat) (sf : NruState × Nat) (newprot : Nat) :
    Except NruErr (NruState × FindResult) :=
  match nruDeletePage sf.1 (sf.1.used_pages sf.2).pagenum with
  | .error e => .error e
  | .ok s3 =>
    .ok (nruRecordNewPage rw s3 sf.2 p,
         { newprot := newprot, victim := some ((sf.1.used_pages sf.2).pagenum),
           clean := some (! (sf.1.used_pages sf.2).modified) })

/-- `jm_find_replacement_page` of `pagereplace_nru.c` after the
reference-bit sweep: fill while below budget; otherwise scan `class_size`
for the smallest non-empty class — if every recorded size is zero the scan
reaches 4 and the subsequent `class_size[4]` access is out of bounds — and
evict from the selected frame, where the random offset is reduced modulo
the recorded (pre-sort) class size. -/
def nruFindCleared (total_pages : Nat) (rw : Bool) (s : NruState) (r p : Nat) :
    Except NruErr (NruState × FindResult) :=
  if s.num_used < total_pages then
    .ok (nruFillPath rw s p (if rw then PROT_RW else PROT_READ))
  else if h4 : scanClass s.class_size < 4 then
    nruEvictFrom rw p
      (nruSelectFrame s (randScale r % s.class_size ⟨scanClass s.class_size, h4⟩)
        (scanClass s.class_size))
      (if rw then PROT_RW else PROT_READ)
  else .error .classSizeOutOfBounds

/-- `jm_find_replacement_page` of `pagereplace_nru.c`.  `total_pages` is the
budget, `rw` is `nru_readwrite`, `interval` is `nru_interval_ms`, `now_ms`
the current time in milliseconds, `r` the `random()` draw of this call and
`p` the faulted page's number. -/
def nruFind (total_pages : Nat) (rw : Bool) (interval : Nat) (s0 : NruState)
    (now_ms r p : Nat) : Except NruErr (NruState × FindResult) :=
  nruFindCleared total_pages rw (maybeClearReferenceBits interval s0 now_ms) r p

/-- `jm_page_is_resident` of the NRU policy.  With `wantProt` (a non-NULL
`protflags`), a hit promotes the page to referenced+modified, unsorts the
side array, and reports read/write; returns the possibly mutated state, the
protection to install (if any) and whether the page was resident. -/
def nruPageIsResident (interval : Nat) (s0 : NruState) (now_ms p : Nat) (wantProt : Bool) :
    NruState × Option Nat × Bool :=
  let s := maybeClearReferenceBits interval s0 now_ms
  match (s.page_hash (hashPage p)).find? (fun i => (s.used_pages i).pagenum = p) with
  | none => (s, none, false)
  | some i =>
    if wantProt then
      ({ s with
         used_pages := fun j =>
           if j = i then { s.used_pages i with referenced := true, modified := true }
           else s.used_pages j,
         sorted_by_class := false },
       some PROT_RW, true)
    else (s, none, true)

/-! ## Signal-installer interception (`funcoverrides.c`: `signal`, `sigaction`) -/

/-- The signal number of SIGSEGV on Linux. -/
def SIGSEGV : Nat := 11

/-- A `struct sigaction` value: the handler pointer (`sa_handler` /
`sa_sigaction`, as an abstract code), the signal mask as a list of signal
numbers, and the remaining fields (`sa_flags` etc.) bundled as one code. -/
structure Sigaction where
  handler : Nat
  mask : List Nat
  rest : Nat
deriving Repr, DecidableEq

/-- `sigdelset(&set, SIGSEGV)`. -/
def stripSegv (a : Sigaction) : Sigaction :=
  { a with mask := a.mask.filter (fun x => x ≠ SIGSEGV) }

/-- The state the installer overrides act on: the two-deep shadow
(`jm_prev_segfaulter`, `jm_prev_prev_segfaulter`) and the kernel-visible
SIGSEGV disposition (what `original_sigaction`/`original_signal` would
install for signal 11). -/
structure SigState where
  prev_segfaulter : Sigaction
  prev_prev_segfaulter : Sigaction
  kernel_segv : Sigaction
deriving Repr, DecidableEq

/-- The overriding `sigaction` of `funcoverrides.c`.  `internal` is
`JM_INTERNAL_INVOCATION()`, `act` is `NULL` or the new action, `wantOld`
says whether `oldact` was non-NULL.  Returns the new state, the `int`
return value, and the contents written through `oldact` (`none` when
either `oldact` was `NULL` or the pass-through kernel call wrote it; for
pass-through calls on SIGSEGV the kernel's old action is reported). -/
def sigactionOverride (s : SigState) (internal : Bool) (signum : Nat)
    (act : Option Sigaction) (wantOld : Bool) : SigState × Int × Option Sigaction :=
  if internal then
    -- pass through unmodified; for SIGSEGV this really changes the kernel
    -- disposition (we model only the SIGSEGV slot of the kernel state)
    if signum = SIGSEGV then
      (match act with
       | some a => { s with kernel_segv := a }
       | none => s,
       0, if wantOld then some s.kernel_segv else none)
    else (s, 0, none)
  else if signum ≠ SIGSEGV then
    -- pass through after stripping SIGSEGV from the supplied mask
    (s, 0, none)
  else
    (match act with
     | some a => { s with prev_prev_segfaulter := s.prev_segfaulter, prev_segfaulter := a }
     | none => s,
     0,
     if wantOld then some s.prev_segfaulter else none)

/-- The overriding `signal` of `funcoverrides.c`.  Only the `sa_handler`
field of the two-deep shadow is shifted; the returned value is the handler
returned to the caller. -/
def signalOverride (s : SigState) (internal : Bool) (signum handler : Nat) :
    SigState × Nat :=
  if signum ≠ SIGSEGV ∨ internal then
    if signum = SIGSEGV then
      ({ s with kernel_segv := { s.kernel_segv with handler := handler } },
       s.kernel_segv.handler)
    else (s, 0)
  else
    ({ s with
       prev_prev_segfaulter := { s.prev_prev_segfaulter with handler := s.prev_segfaulter.handler },
       prev_segfaulter := { s.prev_segfaulter with handler := handler } },
     s.prev_segfaulter.handler)

/-! ## `jm_mmap` (`allocate.c`) and the `mmap` override -/

/-- What the surrounding kernel does on the two `original_mmap` attempts a
non-fixed external `jm_mmap` call can make, plus the current program break.
`fixedOk` decides the `MAP_FIXED` attempt at the advanced data segment
(success returns exactly the requested address); `hintResult` is the address
the kernel picks for the hint-only attempt just past the managed region
(`none` = `MAP_FAILED`); `brkOk` decides the `brk()` call; `sbrk0` is
`sbrk(0)`. -/
structure MmapKernel where
  sbrk0 : Nat
  brkOk : Bool
  fixedOk : Bool
  hintResult : Option Nat
deriving Repr, DecidableEq

/-- The fatal exits of `jm_mmap`. -/
inductive MmapErr where
  /-- "mmap() failed to allocate … at or above address …" -/
  | hintFailed : MmapErr
  /-- "Failed to prevent mmap() from allocating … within […]" -/
  | insideRegion : MmapErr
deriving Repr, DecidableEq

/-- `jm_mmap` of `allocate.c` for an external call with `start = NULL`
(the pass-through branches for a non-NULL `start` or an internal invocation
are omitted: they hand the arguments to `original_mmap` unchanged).
`memregion`/`extent` describe the managed region and `ospagesize` the OS
page size.  Returns the address handed back to the caller. -/
def jm_mmap_external (memregion extent ospagesize length : Nat) (k : MmapKernel) :
    Except MmapErr Nat :=
  let dataend := ((k.sbrk0 - 1) / ospagesize + 1) * ospagesize
  let below :=
    if dataend + length < memregion then
      if k.brkOk then
        if k.fixedOk then
          -- MAP_FIXED success returns the requested address `dataend`,
          -- which the in-region test then cannot reject
          if memregion ≤ dataend ∧ dataend < memregion + extent then none
          else some dataend
        else none
      else none
    else none
  match below with
  | some address => .ok address
  | none =>
    match k.hintResult with
    | none => .error .hintFailed
    | some address =>
      if memregion ≤ address ∧ address < memregion + extent then .error .insideRegion
      else .ok address

/-! ## Adaptive chunked I/O (`funcoverrides.c`: `read_or_write`) -/

/-- `JM_MAX_CONSECUTIVE`. -/
def JM_MAX_CONSECUTIVE : Nat := 3

/-- The loop state of `read_or_write`: bytes transferred, the two search
bounds, the best chunk size seen, the two consecutive-outcome counters, and
the mutable `info->count` field (which between iterations holds the size of
the chunk most recently attempted). -/
structure RwState where
  bytesdone : Nat
  successful_bytes : Nat
  unsuccessful_bytes : Nat
  max_successful_bytes : Nat
  consec_successes : Nat
  consec_failures : Nat
  count : Nat
deriving Repr, DecidableEq

/-- The gate under which `read_or_write` takes the chunked path rather than
invoking the original call directly: the page size is known and the buffer
lies fully inside the managed region (note the strict `>=` in the C test:
a buffer ending exactly at `memregion+extent` is passed through). -/
def rwBufferManaged (memregion extent pagesize baseaddr totalcount : Nat) : Bool :=
  pagesize ≠ 0 && memregion ≤ baseaddr && baseaddr + totalcount < memregion + extent

/-- The state of `read_or_write` just after the bound initialization, for a
request of `totalcount` bytes fully inside the managed region:
`successful_bytes = ospagesize` and
`unsuccessful_bytes = 2*local_pages*pagesize - successful_bytes`. -/
def rwInit (ospagesize local_pages pagesize totalcount : Nat) : RwState :=
  { bytesdone := 0,
    successful_bytes := ospagesize,
    unsuccessful_bytes := 2 * local_pages * pagesize - ospagesize,
    max_successful_bytes := ospagesize,
    consec_successes := 0,
    consec_failures := 0,
    count := totalcount }

/-- The top-of-loop bound adjustment of `read_or_write`: after 3 consecutive
successes raise `successful_bytes` to the last attempted chunk size
(`info->count`); after 3 consecutive failures lower `unsuccessful_bytes` to
it, give up when that boundary is at most the OS page size, and reset the
search when the two bounds collide.  The `Bool` is the give-up break. -/
def rwAdjust (ospagesize : Nat) (s : RwState) : RwState × Bool :=
  if s.consec_successes = JM_MAX_CONSECUTIVE then
    ({ s with successful_bytes := s.count, consec_successes := 0 }, false)
  else if s.consec_failures = JM_MAX_CONSECUTIVE then
    if s.count ≤ ospagesize then
      ({ s with unsuccessful_bytes := s.count, consec_failures := 0 }, true)
    else if s.count = s.successful_bytes then
      ({ s with
         consec_failures := 0,
         successful_bytes := ospagesize,
         unsuccessful_bytes := 2 * s.max_successful_bytes - ospagesize }, false)
    else ({ s with unsuccessful_bytes := s.count, consec_failures := 0 }, false)
  else (s, false)

/-- One iteration of the `read_or_write` loop, around one underlying
read/write call whose result is `r` (the C `newbytes`; `0` models any
result `< 1`).  Returns the new state, the chunk size attempted, and
whether the loop breaks ("give up if we can't read even a single page"). -/
def rwStep (ospagesize totalcount : Nat) (s : RwState) (r : Nat) :
    RwState × Nat × Bool :=
  let adj := rwAdjust ospagesize s
  if adj.2 then (adj.1, 0, true)
  else
    let s2 := adj.1
    let bytesremaining := totalcount - s2.bytesdone
    let chunk0 := (s2.successful_bytes + s2.unsuccessful_bytes) / 2
    let chunk := if chunk0 > bytesremaining then bytesremaining else chunk0
    let s3 := { s2 with count := chunk }
    if r < 1 then
      ({ s3 with consec_failures := s3.consec_failures + 1, consec_successes := 0 },
       chunk, false)
    else
      ({ s3 with
         consec_successes := s3.consec_successes + 1,
         consec_failures := 0,
         max_successful_bytes := max s3.max_successful_bytes chunk,
         bytesdone := s3.bytesdone + r },
       chunk, false)

/-- Run the `read_or_write` loop over a list of underlying call results,
collecting the attempted chunk sizes; stops when `bytesdone ≥ totalcount`,
when the loop gives up, or when the supplied results run out.  Returns the
final state and the chunk trace. -/
def rwRun (ospagesize totalcount : Nat) (s : RwState) : List Nat → RwState × List Nat
  | [] => (s, [])
  | r :: rs =>
    if totalcount ≤ s.bytesdone then (s, [])
    else
      let st := rwStep ospagesize totalcount s r
      if st.2.2 then (st.1, [])
      else
        let rest := rwRun ospagesize totalcount st.1 rs
        (rest.1, st.2.1 :: rest.2)

/-! ## Minimum page size (`sysinfo.c`) -/

/-- `jm_get_minimum_jm_page_size`, with the kernel-probed quantities as
arguments: `max_map_count` from `jm_get_maximum_map_count()` (0 when the
procfs file cannot be read) and `physmem` from
`jm_get_available_memory_size()`.  (The `static` result cache is
irrelevant to the value computed.) -/
def jm_get_minimum_jm_page_size (max_map_count physmem ospagesize : Nat) : Nat :=
  if max_map_count < 1 then 0
  else
    let min_page_size := ((physmem / max_map_count + ospagesize - 1) / ospagesize) * ospagesize
    if min_page_size < ospagesize then ospagesize else min_page_size

/-- The formula as the claim states it: `ceil(P / max_map_count / ospagesize)
* ospagesize` with exact (real) division, i.e. `⌈P / (mmc·osp)⌉ · osp`. -/
def claimedMinPageSize (max_map_count physmem ospagesize : Nat) : Nat :=
  ((physmem + max_map_count * ospagesize - 1) / (max_map_count * ospagesize)) * ospagesize

/-- `read_or_write` end to end: pass through (`none`) unless the page size is
known and the buffer lies fully inside the managed region, otherwise run the
adaptive chunking loop from the freshly initialized bounds over the given
underlying-call results. -/
def read_or_write (memregion extent ospagesize local_pages pagesize : Nat)
    (baseaddr totalcount : Nat) (results : List Nat) : Option (RwState × List Nat) :=
  if rwBufferManaged memregion extent pagesize baseaddr totalcount then
    some (rwRun ospagesize totalcount (rwInit ospagesize local_pages pagesize totalcount) results)
  else none

/-- A two-entry page table holding page 5 (for concrete witnesses). -/
def ptExample : PageTable :=
  match jm_page_table_insert (ptCreate 2) 5 with
  | .ok pt => pt
  | .error _ => ptCreate 2

/-! ## Fault handler (`faulthandler.c`) -/

/-- The observable actions the fault handler performs: kernel calls and
transport (slave) operations, in program order.  The policy calls are
visible separately as changes to the policy component of the state. -/
inductive KernelEvent where
  /-- `jm_original_sigaction(signum, &jm_prev_segfaulter, NULL)` -/
  | restorePrevHandler : KernelEvent
  | freezeOtherThreads : KernelEvent
  | mprotectPage (addr prot : Nat) : KernelEvent
  /-- `jm_assign_backing_store(addr, len, prot)` -/
  | assignBackingStore (addr len prot : Nat) : KernelEvent
  /-- `jm_remove_backing_store(addr, pagesize)` -/
  | removeBackingStore (addr : Nat) : KernelEvent
  | fetchBeginEv (addr : Nat) : KernelEvent
  | fetchEndEv (addr : Nat) : KernelEvent
  | evictBeginEv (addr : Nat) : KernelEvent
  | evictEndEv (addr : Nat) : KernelEvent
  | prefetchBeginEv (addr : Nat) : KernelEvent
  | prefetchEndEv : KernelEvent
  /-- `memcpy` of a prefetched or staged page into/out of the region -/
  | copyPage (addr : Nat) : KernelEvent
deriving Repr, DecidableEq

/-- The configuration the fault handler reads from `jm_globals`. -/
structure HandlerGlobals where
  pagesize : Nat
  memregion : Nat
  extent : Nat
  /-- 0 = `PREFETCH_NONE`, 1 = `PREFETCH_NEXT`, 2 = `PREFETCH_DELTA` -/
  prefetch_type : Nat
  async_evict : Bool
  extra_memcpy : Bool
deriving Repr, DecidableEq

/-- The mutable state the fault handler owns: the policy state (of the
policy linked in), the static nested-fault guard `fault_address`, the three
pending-I/O slots (`fetch_info`/`evict_info`/`prefetch_info` addresses,
`none` = no operation pending), the protection latched for the pending
fetch, and the static `prev_fault_addr` of delta prefetching. -/
structure HandlerState (PSt : Type) where
  policy : PSt
  fault_address : Option Nat
  fetch_addr : Option Nat
  fetch_prot : Nat
  evict_pending : Option (Nat × Bool)
  prefetch_addr : Option Nat
  prev_fault_addr : Nat

/-- Fatal exits of the fault handler itself. -/
inductive HandlerErr where
  /-- "Faulted on address … while processing the fault on address …" -/
  | nestedFault : HandlerErr
  /-- "Internal error: Unknown prefetch type" -/
  | unknownPrefetchType : HandlerErr
deriving Repr, DecidableEq

/-- `evict_end`: complete the pending eviction (transport wait unless clean)
and unmap the victim. -/
def evictEndF {PSt : Type} (st : HandlerState PSt) :
    HandlerState PSt × List KernelEvent :=
  let pr := st.evict_pending.getD (0, false)
  ({ st with evict_pending := none },
   (if pr.2 then [] else [.evictEndEv pr.1]) ++ [.removeBackingStore pr.1])

/-- `evict_begin`: start evicting `addr` (staging copy when `extra_memcpy`,
transport send unless `clean`); under async eviction revoke write access and
leave the operation pending, otherwise complete it immediately. -/
def evictBeginF {PSt : Type} (g : HandlerGlobals) (st : HandlerState PSt)
    (addr : Nat) (clean : Bool) : HandlerState PSt × List KernelEvent :=
  let st1 := { st with evict_pending := some (addr, clean) }
  let evs1 :=
    if clean then []
    else (if g.extra_memcpy then [KernelEvent.copyPage addr] else []) ++ [.evictBeginEv addr]
  if g.async_evict then (st1, evs1 ++ [.mprotectPage addr PROT_READ])
  else
    let e := evictEndF st1
    (e.1, evs1 ++ e.2)

/-- `fetch_begin`. -/
def fetchBeginF {PSt : Type} (st : HandlerState PSt) (addr prot : Nat) :
    HandlerState PSt × List KernelEvent :=
  ({ st with fetch_addr := some addr, fetch_prot := prot }, [.fetchBeginEv addr])

/-- `fetch_end`: wait for the transport, copy out of the staging buffer when
`extra_memcpy`, and install the final protection when it is not read/write. -/
def fetchEndF {PSt : Type} (g : HandlerGlobals) (st : HandlerState PSt) :
    HandlerState PSt × List KernelEvent :=
  let addr := st.fetch_addr.getD 0
  ({ st with fetch_addr := none },
   [.fetchEndEv addr] ++ (if g.extra_memcpy then [KernelEvent.copyPage addr] else []) ++
   (if st.fetch_prot ≠ PROT_RW then [.mprotectPage addr st.fetch_prot] else []))

/-- A page-replacement policy as the fault handler sees it:
`pageIsResident s addr wantProt` models `jm_page_is_resident(addr, protflags)`
(`wantProt` = the pointer was non-NULL) and returns the new policy state,
the protection written through `protflags`, and whether the result was
truthy; `findReplacement s addr` models `jm_find_replacement_page`, the
victim being returned as a page number. -/
structure PolicyIface (PSt : Type) where
  pageIsResident : PSt → Nat → Bool → PSt × Option Nat × Bool
  findReplacement : PSt → Nat → PSt × FindResult

/-- `start_prefetch`: select the candidate page (`next` or `delta`), cancel
if it is outside the managed region or already resident, otherwise begin the
prefetch.  The delta is computed in pointer arithmetic, hence over `Int`. -/
def startPrefetchF {PSt : Type} (g : HandlerGlobals) (pol : PolicyIface PSt)
    (st : HandlerState PSt) (rounded : Nat) :
    Except HandlerErr (HandlerState PSt × List KernelEvent) :=
  let cand? : Except HandlerErr (Int × HandlerState PSt) :=
    if g.prefetch_type = 1 then .ok ((rounded : Int) + g.pagesize, st)
    else if g.prefetch_type = 2 then
      .ok ((rounded : Int) + ((rounded : Int) - st.prev_fault_addr),
           { st with prev_fault_addr := rounded })
    else .error .unknownPrefetchType
  match cand? with
  | .error e => .error e
  | .ok (cand, st1) =>
    if cand < (g.memregion : Int) ∨ (g.memregion : Int) + g.extent ≤ cand then
      .ok ({ st1 with prefetch_addr := none }, [])
    else
      let q := pol.pageIsResident st1.policy cand.toNat false
      let st2 := { st1 with policy := q.1 }
      if q.2.2 then .ok ({ st2 with prefetch_addr := none }, [])
      else
        .ok ({ st2 with prefetch_addr := some cand.toNat },
             [.prefetchBeginEv cand.toNat])

/-- `complete_prefetch`: use the prefetched page if it is the faulted one,
otherwise (or if no prefetch was pending) fetch the page, overlapping the
eviction with the transfer. -/
def completePrefetchF {PSt : Type} (g : HandlerGlobals) (st : HandlerState PSt)
    (rounded prot : Nat) (evictable : Option Nat) (clean : Bool) :
    HandlerState PSt × List KernelEvent :=
  let fetchPath := fun (st0 : HandlerState PSt) (evs0 : List KernelEvent) =>
    let f1 := fetchBeginF st0 rounded prot
    let f2 := match evictable with
      | some va => evictBeginF g f1.1 va clean
      | none => (f1.1, [])
    let f3 := fetchEndF g f2.1
    (f3.1, evs0 ++ f1.2 ++ f2.2 ++ f3.2)
  match st.prefetch_addr with
  | some pa =>
    if pa = rounded then
      let e1 := match evictable with
        | some va => evictBeginF g st va clean
        | none => (st, [])
      (e1.1,
       [KernelEvent.prefetchEndEv] ++ e1.2 ++ [KernelEvent.copyPage rounded] ++
       (if prot ≠ PROT_RW then [KernelEvent.mprotectPage rounded prot] else []))
    else fetchPath st [KernelEvent.prefetchEndEv]
  | none => fetchPath st []

/-- `jm_signal_handler`, from the top of the handler to its exit.
`si_addr` is the faulting address, `mustExit` the result of
`jm_must_exit_signal_handler_now()` (the freeze-protocol bail check). -/
def jm_signal_handler {PSt : Type} (g : HandlerGlobals) (pol : PolicyIface PSt)
    (st : HandlerState PSt) (si_addr : Nat) (mustExit : Bool) :
    Except HandlerErr (HandlerState PSt × List KernelEvent) :=
  if mustExit then .ok (st, [])
  else
    let rounded := g.pagesize * (si_addr / g.pagesize)
    if rounded < g.memregion ∨ g.memregion + g.extent ≤ rounded then
      .ok (st, [.restorePrevHandler])
    else if st.fault_address.isSome then .error .nestedFault
    else
      let st1 := { st with fault_address := some si_addr }
      let q := pol.pageIsResident st1.policy rounded true
      let st2 := { st1 with policy := q.1 }
      if q.2.2 then
        .ok ({ st2 with fault_address := none },
             [.freezeOtherThreads, .mprotectPage rounded (q.2.1.getD 0)])
      else
        let e1 := if st2.evict_pending.isSome then evictEndF st2 else (st2, [])
        let fr := pol.findReplacement e1.1.policy rounded
        let st3 := { e1.1 with policy := fr.1 }
        let evictable := fr.2.victim.map (fun v => g.memregion + v * g.pagesize)
        let clean := fr.2.clean.getD false
        let evs0 := [KernelEvent.freezeOtherThreads] ++ e1.2 ++
          [KernelEvent.assignBackingStore rounded g.pagesize PROT_RW]
        if g.prefetch_type ≠ 0 then
          let c1 := completePrefetchF g st3 rounded fr.2.newprot evictable clean
          match startPrefetchF g pol c1.1 rounded with
          | .error e => .error e
          | .ok (st4, evs2) =>
            .ok ({ st4 with fault_address := none }, evs0 ++ c1.2 ++ evs2)
        else
          let f1 := fetchBeginF st3 rounded fr.2.newprot
          let f2 := match evictable with
            | some va => evictBeginF g f1.1 va clean
            | none => (f1.1, [])
          let f3 := fetchEndF g f2.1
          .ok ({ f3.1 with fault_address := none }, evs0 ++ f1.2 ++ f2.2 ++ f3.2)

/-! ## Concrete instances used by witnesses -/

/-- A concrete shadow/kernel signal state. -/
def sigStateEx : SigState :=
  { prev_segfaulter := { handler := 1, mask := [], rest := 0 },
    prev_prev_segfaulter := { handler := 2, mask := [], rest := 0 },
    kernel_segv := { handler := 3, mask := [], rest := 0 } }

/-- A concrete user action to install. -/
def sigactEx : Sigaction := { handler := 7, mask := [10], rest := 4 }

/-- A policy with no resident pages and victimless replacement, for
exercising the fault handler at concrete inputs. -/
def trivialPolicy : PolicyIface Unit :=
  { pageIsResident := fun s _ _ => (s, none, false),
    findReplacement := fun s _ => (s, { newprot := PROT_RW, victim := none, clean := some false }) }

/-- Concrete fault-handler globals: 4 KiB pages, region `[8192, 12288)`. -/
def handlerGEx : HandlerGlobals :=
  { pagesize := 4096, memregion := 8192, extent := 4096,
    prefetch_type := 0, async_evict := false, extra_memcpy := false }

/-- A concrete quiescent fault-handler state. -/
def handlerStEx : HandlerState Unit :=
  { policy := (), fault_address := none, fetch_addr := none, fetch_prot := 0,
    evict_pending := none, prefetch_addr := none, prev_fault_addr := 0 }

/-- A full two-slot FIFO state holding pages 10 and 11, cursor at slot 0. -/
def fifoStEx : FifoState :=
  { used_pages := fun i => if i = 0 then 10 else 11, num_used := 2, next_evict := 0 }

/-- A random-policy fill-branch result at a concrete input. -/
def randomOutEx : RandomState × FindResult :=
  (randomFind 1 randomInit 4 []).getD
    (randomInit, { newprot := 0, victim := none, clean := none })

/-- An NRE fill-branch result at a concrete input. -/
def nreOutEx : NreState × FindResult :=
  match nreFind 2 32 5 (nreInit 2) 0 [] with
  | .ok o => o
  | .error _ => (nreInit 2, { newprot := 0, victim := none, clean := none })

/-- A full one-page NRU state whose single resident page (number 5) is
referenced and modified, with a consistent recorded class size, so that a
miss takes the eviction path. -/
def nruStEx : NruState :=
  { used_pages := fun i =>
      if i = 0 then { pagenum := 5, referenced := true, modified := true }
      else { pagenum := 0, referenced := false, modified := false },
    page_hash := fun h => if h = hashPage 5 then [0] else [],
    pages_by_class := fun _ => 0,
    sorted_by_class := true,
    class_size := fun c => if c.val = 3 then 1 else 0,
    num_used := 1, dead_bucket := none, prev_rbit_clear_time := 0 }

/-- The NRU eviction result from `nruStEx` on a miss for page 7. -/
def nruOutEx : NruState × FindResult :=
  match nruFind 1 true 5000 nruStEx 0 0 7 with
  | .ok o => o
  | .error _ => (nruStEx, { newprot := 0, victim := none, clean := none })

/-! # Theorems -/

/-- C9 (counterexample): with `max_map_count = 2`, available memory 8193 and a
4096-byte OS page, the code returns 4096 while the claimed formula
`ceil(P / max_map_count / ospagesize) * ospagesize` yields 8192: the code
floors `P / max_map_count` before rounding up. -/
theorem min_page_size_formula_mismatch :
    jm_get_minimum_jm_page_size 2 8193 4096 = 4096 ∧
    claimedMinPageSize 2 8193 4096 = 8192 ∧
    jm_get_minimum_jm_page_size 2 8193 4096 ≠ claimedMinPageSize 2 8193 4096 := by
  decide

/-- C9 (amended): when `max_map_count` cannot be determined the result is 0;
otherwise the result is the least positive multiple of `ospagesize` that is
at least `physmem / max_map_count` (integer floor division) — i.e.
`max(ospagesize, ceil((P div max_map_count) / ospagesize) * ospagesize)`. -/
theorem min_page_size_characterization :
    (∀ physmem osp : Nat, jm_get_minimum_jm_page_size 0 physmem osp = 0) ∧
    (∀ mmc physmem osp : Nat, 1 ≤ mmc → 0 < osp →
      osp ∣ jm_get_minimum_jm_page_size mmc physmem osp ∧
      physmem / mmc ≤ jm_get_minimum_jm_page_size mmc physmem osp ∧
      0 < jm_get_minimum_jm_page_size mmc physmem osp ∧
      ∀ m, 0 < m → osp ∣ m → physmem / mmc ≤ m →
        jm_get_minimum_jm_page_size mmc physmem osp ≤ m) := by
  constructor
  · intro physmem osp
    simp [jm_get_minimum_jm_page_size]
  · intro mmc physmem osp hm ho
    have hmmc : ¬ mmc < 1 := by omega
    simp only [jm_get_minimum_jm_page_size, if_neg hmmc]
    set q := physmem / mmc with hq
    set d := (q + osp - 1) / osp with hd
    have hdm : osp * d + (q + osp - 1) % osp = q + osp - 1 := Nat.div_add_mod _ _
    have hmod : (q + osp - 1) % osp < osp := Nat.mod_lt _ ho
    have hcomm : osp * d = d * osp := Nat.mul_comm osp d
    have hqd : q ≤ d * osp := by omega
    by_cases hlt : d * osp < osp
    · rw [if_pos hlt]
      refine ⟨dvd_refl osp, by omega, ho, ?_⟩
      intro m hm0 hdvd _
      exact Nat.le_of_dvd hm0 hdvd
    · rw [if_neg hlt]
      refine ⟨dvd_mul_left osp d, hqd, by omega, ?_⟩
      intro m hm0 hdvd hqm
      obtain ⟨k, hk⟩ := hdvd
      have hdk : d < k + 1 := by
        rw [hd, Nat.div_lt_iff_lt_mul ho]
        have h1 : (k + 1) * osp = osp * k + osp := by ring
        omega
      calc d * osp ≤ k * osp := Nat.mul_le_mul_right osp (by omega)
        _ = osp * k := Nat.mul_comm k osp
        _ = m := hk.symm

/-- C9 (witness): the characterization applied at `max_map_count = 3`,
`P = 10000`, `ospagesize = 4096`, with the minimality conjunct discharged at
the concrete candidate 4096. -/
theorem min_page_size_characterization_witness :
    4096 ∣ jm_get_minimum_jm_page_size 3 10000 4096 ∧
    10000 / 3 ≤ jm_get_minimum_jm_page_size 3 10000 4096 ∧
    0 < jm_get_minimum_jm_page_size 3 10000 4096 ∧
    jm_get_minimum_jm_page_size 3 10000 4096 ≤ 4096 :=
  let h := min_page_size_characterization.2 3 10000 4096 (by decide) (by decide)
  ⟨h.1, h.2.1, h.2.2.1, h.2.2.2 4096 (by decide) (by decide) (by decide)⟩

/-- C4: an external `sigaction(SIGSEGV, act, oldact)` returns 0, reports the
previously recorded action through `oldact`, shifts the caller's action into
the two-deep shadow, and leaves the kernel-visible SIGSEGV disposition
untouched; an external `signal(SIGSEGV, handler)` does the same on the
`sa_handler` fields and returns the previously recorded handler. -/
theorem sigsegv_installer_virtualized :
    ∀ (s : SigState) (a : Sigaction) (wantOld : Bool) (handler : Nat),
      (sigactionOverride s false SIGSEGV (some a) wantOld).2.1 = 0 ∧
      (wantOld = true →
        (sigactionOverride s false SIGSEGV (some a) wantOld).2.2 = some s.prev_segfaulter) ∧
      (sigactionOverride s false SIGSEGV (some a) wantOld).1.prev_segfaulter = a ∧
      (sigactionOverride s false SIGSEGV (some a) wantOld).1.prev_prev_segfaulter
        = s.prev_segfaulter ∧
      (sigactionOverride s false SIGSEGV (some a) wantOld).1.kernel_segv = s.kernel_segv ∧
      (signalOverride s false SIGSEGV handler).2 = s.prev_segfaulter.handler ∧
      (signalOverride s false SIGSEGV handler).1.prev_segfaulter.handler = handler ∧
      (signalOverride s false SIGSEGV handler).1.prev_prev_segfaulter.handler
        = s.prev_segfaulter.handler ∧
      (signalOverride s false SIGSEGV handler).1.kernel_segv = s.kernel_segv := by
  intro s a wantOld handler
  refine ⟨?_, ?_, ?_, ?_, ?_, ?_, ?_, ?_, ?_⟩ <;>
    simp [sigactionOverride, signalOverride]

/-- C4 (witness): the installer theorem at a concrete state, a concrete
action, `oldact` requested, and handler code 9. -/
theorem sigsegv_installer_virtualized_witness :
    (sigactionOverride sigStateEx false SIGSEGV (some sigactEx) true).2.1 = 0 ∧
    (sigactionOverride sigStateEx false SIGSEGV (some sigactEx) true).2.2
      = some sigStateEx.prev_segfaulter ∧
    (sigactionOverride sigStateEx false SIGSEGV (some sigactEx) true).1.prev_segfaulter
      = sigactEx ∧
    (sigactionOverride sigStateEx false SIGSEGV (some sigactEx) true).1.kernel_segv
      = sigStateEx.kernel_segv ∧
    (signalOverride sigStateEx false SIGSEGV 9).2 = sigStateEx.prev_segfaulter.handler :=
  let h := sigsegv_installer_virtualized sigStateEx sigactEx true 9
  ⟨h.1, h.2.1 rfl, h.2.2.1, h.2.2.2.2.1, h.2.2.2.2.2.1⟩

/-- C5: a fault whose page-rounded address lies outside the managed region
makes the handler restore the previously recorded SIGSEGV handler and return
with the entire handler state — policy, page table, pending fetch/evict/
prefetch slots — unchanged, and with no other kernel or transport action. -/
theorem fault_outside_region_restores_handler :
    ∀ (PSt : Type) (g : HandlerGlobals) (pol : PolicyIface PSt)
      (st : HandlerState PSt) (si_addr : Nat),
      (g.pagesize * (si_addr / g.pagesize) < g.memregion ∨
        g.memregion + g.extent ≤ g.pagesize * (si_addr / g.pagesize)) →
      jm_signal_handler g pol st si_addr false = .ok (st, [.restorePrevHandler]) := by
  intro PSt g pol st si_addr h
  simp [jm_signal_handler, h]

/-- C5 (witness): the out-of-range theorem at a concrete configuration
(region `[8192, 12288)`) and fault address 0. -/
theorem fault_outside_region_restores_handler_witness :
    jm_signal_handler handlerGEx trivialPolicy handlerStEx 0 false
      = .ok (handlerStEx, [.restorePrevHandler]) :=
  fault_outside_region_restores_handler Unit handlerGEx trivialPolicy handlerStEx 0
    (by decide)

/-- C6 (counterexample): an external NULL-hint `mmap` of 8192 bytes, with the
managed region at `[409600, 450560)` and the kernel placing the hinted
mapping at 405504, is handed back to the caller even though the mapping
`[405504, 413696)` is neither entirely below nor entirely above the region:
only the start address is checked. -/
theorem mmap_nonfixed_can_return_overlapping_mapping :
    jm_mmap_external 409600 40960 4096 8192
      { sbrk0 := 405504, brkOk := true, fixedOk := true, hintResult := some 405504 }
      = .ok 405504 ∧
    ¬ (405504 + 8192 ≤ 409600 ∨ 409600 + 40960 ≤ 405504) :=
  ⟨rfl, by decide⟩

/-- C6 (amended): every address an external NULL-hint `mmap` hands back to
the caller lies outside `[base, base+extent)` — the start address is
checked, and an in-region start is a fatal error — but the mapping's extent
past its start address is not constrained. -/
theorem mmap_returned_start_outside_region :
    ∀ (memregion extent ospagesize length : Nat) (k : MmapKernel) (a : Nat),
      jm_mmap_external memregion extent ospagesize length k = .ok a →
      ¬ (memregion ≤ a ∧ a < memregion + extent) := by
  intro memregion extent ospagesize length k a h
  rcases k with ⟨sb, bk, fk, hr⟩
  unfold jm_mmap_external at h
  cases bk <;> cases fk <;> rcases hr with _ | addr <;>
    dsimp only at h <;>
    split_ifs at h <;>
    simp_all

/-- C6 (amended, witness): the start-address guarantee at a concrete call
that succeeds below the region. -/
theorem mmap_returned_start_outside_region_witness :
    ¬ (409600 ≤ 4096 ∧ 4096 < 409600 + 40960) :=
  mmap_returned_start_outside_region 409600 40960 4096 8192
    { sbrk0 := 4096, brkOk := true, fixedOk := true, hintResult := some 500000 }
    4096 rfl

/-- C1: under NRU the very first call to `jm_find_replacement_page` that
begins with the cache full (budget `N = 1`, second fault) does not return a
victim: every recorded `class_size` entry is still zero — nothing ever
increments them before the first `sort_pages_by_class`, which itself only
runs after this read — so the smallest-nonempty-class scan runs past class 3
and the code evaluates `random() % class_size[4]`, an out-of-bounds read. -/
theorem nru_full_cache_class_scan_overruns :
    (nruFind 1 true 5000 (nruInit 0) 0 0 0).bind
      (fun a => nruFind 1 true 5000 a.1 0 0 1) = .error .classSizeOutOfBounds := by
  rfl

/-- C7: same scan overrun at budget `N = 2`: after the cache fills (pages 0
and 1), the first miss consults the all-zero `class_size` array, finds no
non-empty class, and indexes one element past its end instead of selecting
from the smallest-numbered non-empty class. -/
theorem nru_eviction_class_sizes_stale_oob :
    (nruFind 2 true 5000 (nruInit 0) 0 0 0).bind
      (fun a => (nruFind 2 true 5000 a.1 0 0 1).bind
        (fun b => nruFind 2 true 5000 b.1 0 0 2)) = .error .classSizeOutOfBounds := by
  rfl

/-- A chain none of whose entries stores `p` yields no removal. -/
theorem chainRemove_eq_none (up : Nat → Nat) (p : Nat) (l : List Nat)
    (h : ∀ i ∈ l, up i ≠ p) : chainRemove up p l = none := by
  induction l with
  | nil => rfl
  | cons a t ih =>
    have ha : ¬ up a = p := h a (by simp)
    have ht := ih (fun i hi => h i (by simp [hi]))
    simp [chainRemove, ha, ht]

/-- A delete of a page absent from its chain is a fatal error. -/
theorem delete_absent_errors (pt : PageTable) (p : Nat)
    (h : find_page_by_number pt p = none) :
    ∃ e, delete_page_by_number pt p = .error e := by
  rw [find_page_by_number, List.find?_eq_none] at h
  have hcr : chainRemove pt.used_pages p (pt.page_hash (hashPage p)) = none := by
    refine chainRemove_eq_none _ _ _ (fun i hi => ?_)
    simpa using h i hi
  unfold delete_page_by_number
  rcases hc : pt.page_hash (hashPage p) with _ | ⟨a, t⟩
  · exact ⟨_, rfl⟩
  · rw [hc] at hcr
    by_cases hd : pt.dead_bucket.isSome
    · exact ⟨.doubleDelete, by simp [hd]⟩
    · exact ⟨.deleteMissing, by simp [hd, hcr]⟩

/-- A delete with the dead bucket occupied is a fatal error. -/
theorem delete_with_dead_bucket_errors (pt : PageTable) (p : Nat)
    (h : pt.dead_bucket.isSome = true) :
    ∃ e, delete_page_by_number pt p = .error e := by
  unfold delete_page_by_number
  rcases hc : pt.page_hash (hashPage p) with _ | ⟨a, t⟩
  · exact ⟨.deleteEmptyChain, rfl⟩
  · exact ⟨.doubleDelete, by simp [h]⟩

/-- A successful `delete_page_by_number` leaves the detached bucket in the
dead slot. -/
theorem dpbn_ok_dead_bucket (pt : PageTable) (p : Nat) (pt1 : PageTable)
    (h : delete_page_by_number pt p = .ok pt1) : pt1.dead_bucket.isSome = true := by
  unfold delete_page_by_number at h
  repeat' split at h
  all_goals simp_all
  subst h
  rfl

/-- A successful delete leaves the detached bucket in the dead slot. -/
theorem delete_ok_dead_bucket (pt : PageTable) (p : Nat) (pt1 : PageTable)
    (h : jm_page_table_delete pt p = .ok pt1) : pt1.dead_bucket.isSome = true := by
  unfold jm_page_table_delete at h
  cases hdp : delete_page_by_number pt p with
  | error e => rw [hdp] at h; simp at h
  | ok pt2 =>
    rw [hdp] at h
    simp only [Except.ok.injEq] at h
    have := dpbn_ok_dead_bucket pt p pt2 hdp
    rw [← h]
    exact this

/-- C3: the page table's usage discipline is enforced fatally: inserting into
a table already holding `table_size` entries aborts; deleting an absent page
aborts; a second delete with no intervening insert aborts; and a successful
insert clears the dead bucket, re-enabling the next delete — so deletes and
inserts strictly alternate once the table has filled. -/
theorem page_table_usage_discipline_fatal :
    (∀ (pt : PageTable) (p : Nat), pt.num_used = pt.table_size →
      jm_page_table_insert pt p = .error .overflow) ∧
    (∀ (pt : PageTable) (p : Nat), find_page_by_number pt p = none →
      ∃ e, jm_page_table_delete pt p = .error e) ∧
    (∀ (pt : PageTable) (p q : Nat), (jm_page_table_delete pt p).toOption.isSome = true →
      ∃ e, (jm_page_table_delete pt p).bind (fun pt1 => jm_page_table_delete pt1 q)
        = .error e) ∧
    (∀ (pt : PageTable) (p : Nat) (pt2 : PageTable), jm_page_table_insert pt p = .ok pt2 →
      pt2.dead_bucket = none) := by
  refine ⟨?_, ?_, ?_, ?_⟩
  · intro pt p h
    simp [jm_page_table_insert, h]
  · intro pt p h
    obtain ⟨e, he⟩ := delete_absent_errors pt p h
    exact ⟨e, by simp [jm_page_table_delete, he]⟩
  · intro pt p q h
    cases hdel : jm_page_table_delete pt p with
    | error e => rw [hdel] at h; simp [Except.toOption] at h
    | ok pt1 =>
      obtain ⟨e, he⟩ :=
        delete_with_dead_bucket_errors pt1 q (delete_ok_dead_bucket pt p pt1 hdel)
      refine ⟨e, ?_⟩
      show jm_page_table_delete pt1 q = .error e
      simp [jm_page_table_delete, he]
  · intro pt p pt2 h
    unfold jm_page_table_insert at h
    split at h
    · simp at h
    · simp only [Except.ok.injEq] at h
      rw [← h]
      simp [insert_pte]

/-- C3 (witness): overflow on a zero-capacity table; delete of an absent page;
double delete after deleting page 5 from a concrete table; and the dead
bucket cleared by the insert that built that table. -/
theorem page_table_usage_discipline_fatal_witness :
    jm_page_table_insert (ptCreate 0) 3 = .error .overflow ∧
    (∃ e, jm_page_table_delete (ptCreate 2) 7 = .error e) ∧
    (∃ e, (jm_page_table_delete ptExample 5).bind
      (fun pt1 => jm_page_table_delete pt1 5) = .error e) ∧
    ptExample.dead_bucket = none :=
  ⟨page_table_usage_discipline_fatal.1 (ptCreate 0) 3 rfl,
   page_table_usage_discipline_fatal.2.1 (ptCreate 2) 7 rfl,
   page_table_usage_discipline_fatal.2.2.1 ptExample 5 5 rfl,
   page_table_usage_discipline_fatal.2.2.2 (ptCreate 2) 5 ptExample rfl⟩

/-- Re-sorting the side array does not touch the PTE array. -/
theorem sortPagesByClass_used_pages (s : NruState) :
    (sortPagesByClass s).used_pages = s.used_pages := by
  unfold sortPagesByClass
  split <;> rfl

/-- Frame selection never touches the PTE array. -/
theorem nruSelectFrame_used_pages (s : NruState) (off cls : Nat) :
    (nruSelectFrame s off cls).1.used_pages = s.used_pages := by
  unfold nruSelectFrame
  split
  · exact sortPagesByClass_used_pages s
  · rfl

/-- The reference-bit sweep preserves every page number. -/
theorem maybeClear_pagenum (iv : Nat) (s : NruState) (now i : Nat) :
    ((maybeClearReferenceBits iv s now).used_pages i).pagenum
      = (s.used_pages i).pagenum := by
  unfold maybeClearReferenceBits
  split
  · rfl
  · dsimp only
    split <;> rfl

/-- The reference-bit sweep preserves every modified bit. -/
theorem maybeClear_modified (iv : Nat) (s : NruState) (now i : Nat) :
    ((maybeClearReferenceBits iv s now).used_pages i).modified
      = (s.used_pages i).modified := by
  unfold maybeClearReferenceBits
  split
  · rfl
  · dsimp only
    split <;> rfl

/-- A successful NRU eviction reports the selected frame's page as victim
and the negation of its modified bit as the clean flag. -/
theorem nruEvictFrom_ok_spec (rw : Bool) (p : Nat) (sf : NruState × Nat) (np : Nat)
    (out : NruState × FindResult) (h : nruEvictFrom rw p sf np = .ok out) :
    out.2.victim = some ((sf.1.used_pages sf.2).pagenum) ∧
    out.2.clean = some (! (sf.1.used_pages sf.2).modified) := by
  unfold nruEvictFrom at h
  split at h
  · exact absurd h (by simp)
  · simp only [Except.ok.injEq] at h
    rw [← h]
    exact ⟨rfl, rfl⟩

/-- C10: FIFO, Random and NRE unconditionally report the new page as
read/write and the victim as dirty (`*clean = 0`); NRU alone can report a
clean eviction, and whenever it reports cleanliness `c` for a victim the
victim is a page of the pre-call state with modified bit `!c` — so a
communication-free eviction occurs only under NRU, on a victim whose
modified bit is clear. -/
theorem policies_report_dirty_rw_except_nru :
    (∀ (N : Nat) (s : FifoState) (p : Nat),
      (fifoFind N s p).2.newprot = PROT_RW ∧ (fifoFind N s p).2.clean = some false) ∧
    (∀ (N : Nat) (s : RandomState) (p : Nat) (draws : List Nat)
      (out : RandomState × FindResult),
      randomFind N s p draws = some out →
      out.2.newprot = PROT_RW ∧ out.2.clean = some false) ∧
    (∀ (tp el mr : Nat) (s : NreState) (p : Nat) (draws : List Nat)
      (out : NreState × FindResult),
      nreFind tp el mr s p draws = .ok out →
      out.2.newprot = PROT_RW ∧ out.2.clean = some false) ∧
    (∀ (tp : Nat) (rw : Bool) (iv : Nat) (s : NruState) (now r p : Nat)
      (out : NruState × FindResult) (c : Bool),
      nruFind tp rw iv s now r p = .ok out → out.2.clean = some c →
      ∃ i, out.2.victim = some ((s.used_pages i).pagenum) ∧
        c = ! (s.used_pages i).modified) := by
  refine ⟨?_, ?_, ?_, ?_⟩
  · intro N s p
    unfold fifoFind
    split <;> exact ⟨rfl, rfl⟩
  · intro N s p draws out h
    unfold randomFind at h
    split at h
    · simp only [Option.some.injEq] at h
      rw [← h]
      exact ⟨rfl, rfl⟩
    · split at h
      · exact absurd h (by simp)
      · simp only [Option.some.injEq] at h
        rw [← h]
        exact ⟨rfl, rfl⟩
  · intro tp el mr s p draws out h
    unfold nreFind at h
    repeat' split at h
    all_goals first
      | (simp only [Except.ok.injEq] at h; rw [← h]; exact ⟨rfl, rfl⟩)
      | exact absurd h (by simp)
  · intro tp rw iv s now r p out c h hc
    unfold nruFind nruFindCleared at h
    split at h
    · -- fill branch: `*clean` is never written
      simp only [Except.ok.injEq] at h
      rw [← h] at hc
      exact absurd hc (by simp [nruFillPath])
    · split at h
      · -- eviction branch
        obtain ⟨hv, hcl⟩ := nruEvictFrom_ok_spec _ _ _ _ _ h
        rw [nruSelectFrame_used_pages, maybeClear_pagenum] at hv
        rw [nruSelectFrame_used_pages, maybeClear_modified] at hcl
        refine ⟨_, hv, ?_⟩
        have h2 := hcl.symm.trans hc
        simpa using h2.symm
      · exact absurd h (by simp)

/-- C10 (witness): the dirty/read-write report at concrete calls of all four
policies, and the clean flag of a concrete NRU eviction tied to its victim's
modified bit. -/
theorem policies_report_dirty_rw_except_nru_witness :
    (fifoFind 1 fifoInit 0).2.newprot = PROT_RW ∧
    (fifoFind 1 fifoInit 0).2.clean = some false ∧
    randomOutEx.2.newprot = PROT_RW ∧ randomOutEx.2.clean = some false ∧
    nreOutEx.2.newprot = PROT_RW ∧ nreOutEx.2.clean = some false ∧
    (∃ i, nruOutEx.2.victim = some ((nruStEx.used_pages i).pagenum) ∧
      false = ! (nruStEx.used_pages i).modified) :=
  let hf := policies_report_dirty_rw_except_nru.1 1 fifoInit 0
  let hr := policies_report_dirty_rw_except_nru.2.1 1 randomInit 4 [] randomOutEx rfl
  let hn := policies_report_dirty_rw_except_nru.2.2.1 2 32 5 (nreInit 2) 0 [] nreOutEx rfl
  let hu := policies_report_dirty_rw_except_nru.2.2.2 1 true 5000 nruStEx 0 0 7
    nruOutEx false rfl rfl
  ⟨hf.1, hf.2, hr.1, hr.2, hn.1, hn.2, hu⟩

/-- C8 (counterexample): region `[4096, 1004096)`, OS page 4096, a 4-page
local cache of 4096-byte pages, a 100000-byte in-region buffer.  The first
chunk is `(4096+28672)/2 = 16384` bytes and succeeds in full, yet
`successful_bytes` still equals its initial value 4096 afterwards: a single
successful chunk does not bump the lower bound (only three consecutive
outcomes move a bound). -/
theorem rw_success_does_not_bump_lower_bound :
    (read_or_write 4096 1000000 4096 4 4096 4096 100000 [16384]).map
        (fun x => (x.1.bytesdone, x.1.successful_bytes, x.1.unsuccessful_bytes, x.2))
      = some (16384, 4096, 28672, [16384]) ∧
    (rwInit 4096 4 4096 100000).successful_bytes = 4096 := by
  decide

/-- The bound adjustment never touches `bytesdone`. -/
theorem rwAdjust_bytesdone (osp : Nat) (s : RwState) :
    (rwAdjust osp s).1.bytesdone = s.bytesdone := by
  unfold rwAdjust
  split_ifs <;> rfl

/-- A step's final bounds are the adjusted bounds (chunk outcomes never move
them), and its break flag is the adjustment's give-up flag. -/
theorem rwStep_bounds (osp tc : Nat) (s : RwState) (r : Nat) :
    (rwStep osp tc s r).1.successful_bytes = (rwAdjust osp s).1.successful_bytes ∧
    (rwStep osp tc s r).1.unsuccessful_bytes = (rwAdjust osp s).1.unsuccessful_bytes ∧
    (rwStep osp tc s r).2.2 = (rwAdjust osp s).2 := by
  unfold rwStep
  cases hadj : rwAdjust osp s with
  | mk a g =>
    cases g <;> by_cases hr : r < 1 <;> simp [hr]

/-- `successful_bytes` moves only at a consecutive-outcome threshold. -/
theorem rwAdjust_succ_changed (osp : Nat) (s : RwState)
    (h : (rwAdjust osp s).1.successful_bytes ≠ s.successful_bytes) :
    s.consec_successes = JM_MAX_CONSECUTIVE ∨ s.consec_failures = JM_MAX_CONSECUTIVE := by
  unfold rwAdjust at h
  split_ifs at h <;> simp_all

/-- `unsuccessful_bytes` moves only after 3 consecutive failures. -/
theorem rwAdjust_unsucc_changed (osp : Nat) (s : RwState)
    (h : (rwAdjust osp s).1.unsuccessful_bytes ≠ s.unsuccessful_bytes) :
    s.consec_failures = JM_MAX_CONSECUTIVE ∧ s.consec_successes ≠ JM_MAX_CONSECUTIVE := by
  unfold rwAdjust at h
  split_ifs at h <;> simp_all

/-- The loop gives up exactly when a 3rd consecutive failure lowers the
failing boundary (the last attempted chunk size) to at most one OS page. -/
theorem rwAdjust_giveup_iff (osp : Nat) (s : RwState) :
    (rwAdjust osp s).2 = true ↔
      (s.consec_successes ≠ JM_MAX_CONSECUTIVE ∧ s.consec_failures = JM_MAX_CONSECUTIVE ∧
        s.count ≤ osp) := by
  unfold rwAdjust
  split_ifs <;> simp_all

/-- C8 (amended): for an in-region buffer the chunker starts from
`successful_bytes = ospagesize` and
`unsuccessful_bytes = 2*local_pages*pagesize - ospagesize`; every attempted
chunk is `(successful_bytes+unsuccessful_bytes)/2` clamped to the bytes
remaining; a bound moves only at the `JM_MAX_CONSECUTIVE = 3` thresholds —
`successful_bytes` only after 3 consecutive successes (or at the search
reset after 3 failures), `unsuccessful_bytes` only after 3 consecutive
failures; and the loop gives up (returning the bytes transferred so far)
exactly when a 3rd consecutive failure drags the failing boundary to at
most the OS page size. -/
theorem rw_adaptive_chunking_characterization :
    (∀ mem ext osp lp ps base tc res, rwBufferManaged mem ext ps base tc = true →
      read_or_write mem ext osp lp ps base tc res
        = some (rwRun osp tc (rwInit osp lp ps tc) res)) ∧
    (∀ osp lp ps tc, (rwInit osp lp ps tc).successful_bytes = osp ∧
      (rwInit osp lp ps tc).unsuccessful_bytes = 2 * lp * ps - osp) ∧
    (∀ osp tc (s : RwState) (r : Nat), (rwAdjust osp s).2 = false →
      (rwStep osp tc s r).2.1
        = min (((rwAdjust osp s).1.successful_bytes
            + (rwAdjust osp s).1.unsuccessful_bytes) / 2) (tc - s.bytesdone)) ∧
    (∀ osp tc (s : RwState) (r : Nat),
      (rwStep osp tc s r).1.successful_bytes ≠ s.successful_bytes →
      s.consec_successes = JM_MAX_CONSECUTIVE ∨ s.consec_failures = JM_MAX_CONSECUTIVE) ∧
    (∀ osp tc (s : RwState) (r : Nat),
      (rwStep osp tc s r).1.unsuccessful_bytes ≠ s.unsuccessful_bytes →
      s.consec_failures = JM_MAX_CONSECUTIVE ∧ s.consec_successes ≠ JM_MAX_CONSECUTIVE) ∧
    (∀ osp tc (s : RwState) (r : Nat), (rwStep osp tc s r).2.2 = true ↔
      (s.consec_successes ≠ JM_MAX_CONSECUTIVE ∧ s.consec_failures = JM_MAX_CONSECUTIVE ∧
        s.count ≤ osp)) := by
  refine ⟨?_, ?_, ?_, ?_, ?_, ?_⟩
  · intro mem ext osp lp ps base tc res h
    simp [read_or_write, h]
  · intro osp lp ps tc
    exact ⟨rfl, rfl⟩
  · intro osp tc s r h
    have hbd := rwAdjust_bytesdone osp s
    unfold rwStep
    cases hadj : rwAdjust osp s with
    | mk a g =>
      rw [hadj] at h hbd
      simp only at h hbd
      subst h
      dsimp only
      rw [hbd]
      by_cases hr : r < 1 <;> simp [hr, Nat.min_def] <;> split_ifs <;> omega
  · intro osp tc s r h
    rw [(rwStep_bounds osp tc s r).1] at h
    exact rwAdjust_succ_changed osp s h
  · intro osp tc s r h
    rw [(rwStep_bounds osp tc s r).2.1] at h
    exact rwAdjust_unsucc_changed osp s h
  · intro osp tc s r
    rw [(rwStep_bounds osp tc s r).2.2]
    exact rwAdjust_giveup_iff osp s

/-- C8 (witness): the characterization at the counterexample configuration:
gate, initial bounds, the first chunk's size law, a bound change after a
3rd consecutive failure, and the give-up test at a concrete state. -/
theorem rw_adaptive_chunking_characterization_witness :
    read_or_write 4096 1000000 4096 4 4096 4096 100000 [16384]
      = some (rwRun 4096 100000 (rwInit 4096 4 4096 100000) [16384]) ∧
    (rwInit 4096 4 4096 100000).successful_bytes = 4096 ∧
    (rwStep 4096 100000 (rwInit 4096 4 4096 100000) 16384).2.1
      = min (((rwAdjust 4096 (rwInit 4096 4 4096 100000)).1.successful_bytes
          + (rwAdjust 4096 (rwInit 4096 4 4096 100000)).1.unsuccessful_bytes) / 2)
        (100000 - (rwInit 4096 4 4096 100000).bytesdone) ∧
    ((rwStep 4096 100000
        { bytesdone := 0, successful_bytes := 4096, unsuccessful_bytes := 8192,
          max_successful_bytes := 4096, consec_successes := 0, consec_failures := 3,
          count := 6000 } 0).1.unsuccessful_bytes ≠ 8192 →
      (3 = JM_MAX_CONSECUTIVE ∧ 0 ≠ JM_MAX_CONSECUTIVE)) ∧
    ((rwStep 4096 100000
        { bytesdone := 0, successful_bytes := 4096, unsuccessful_bytes := 8192,
          max_successful_bytes := 4096, consec_successes := 0, consec_failures := 3,
          count := 4000 } 0).2.2 = true) :=
  ⟨rw_adaptive_chunking_characterization.1 4096 1000000 4096 4 4096 4096 100000 [16384] rfl,
   (rw_adaptive_chunking_characterization.2.1 4096 4 4096 100000).1,
   rw_adaptive_chunking_characterization.2.2.1 4096 100000 (rwInit 4096 4 4096 100000) 16384
     (by decide),
   fun h => rw_adaptive_chunking_characterization.2.2.2.2.1 4096 100000 _ 0 h,
   (rw_adaptive_chunking_characterization.2.2.2.2.2 4096 100000 _ 0).mpr
     (by refine ⟨by decide, rfl, by decide⟩)⟩

/-- Two distinct indices less than `N` apart have distinct residues. -/
theorem mod_ne_of_between (a b N : Nat) (h1 : a < b) (h2 : b < a + N) :
    a % N ≠ b % N := by
  intro h
  have hmod : a ≡ b [MOD N] := h
  have hdvd : N ∣ b - a := (Nat.modEq_iff_dvd' (le_of_lt h1)).mp hmod
  have := Nat.le_of_dvd (by omega) hdvd
  omega

/-- A fill-phase call (`t < N`): no victim, and the invariant advances. -/
theorem fifoFind_fill (N : Nat) (ps : List Nat) (t : Nat) (s : FifoState) (p : Nat)
    (hinv : FifoInv N ps t s) (htN : t < N) (hget : ps.getD t 0 = p) :
    (fifoFind N s p).2.victim = none ∧ FifoInv N ps (t + 1) (fifoFind N s p).1 := by
  obtain ⟨hnum, hne, hup⟩ := hinv
  have hcond : s.num_used < N := by omega
  have hnumt : s.num_used = t := by omega
  unfold fifoFind
  rw [if_pos hcond]
  refine ⟨rfl, by dsimp only; omega, ?_, ?_⟩
  · have e1 : t - N = 0 := by omega
    have e2 : t + 1 - N = 0 := by omega
    rw [hne, e1, e2]
  · intro j hj hjN
    dsimp only
    by_cases hjt : j = t
    · subst hjt
      rw [Nat.mod_eq_of_lt htN, hnumt, if_pos rfl, hget]
    · have hjlt : j < t := by omega
      have hjN2 : j < N := by omega
      rw [Nat.mod_eq_of_lt hjN2, hnumt, if_neg hjt]
      have := hup j hjlt (by omega)
      rw [Nat.mod_eq_of_lt hjN2] at this
      exact this

/-- A full-cache call (`N ≤ t`): the victim is the page recorded at event
`t - N`, and the invariant advances. -/
theorem fifoFind_full (N : Nat) (ps : List Nat) (t : Nat) (s : FifoState) (p : Nat)
    (hN : 1 ≤ N) (hinv : FifoInv N ps t s) (htN : N ≤ t) (hget : ps.getD t 0 = p) :
    (fifoFind N s p).2.victim = some (toU32 (ps.getD (t - N) 0)) ∧
    FifoInv N ps (t + 1) (fifoFind N s p).1 := by
  obtain ⟨hnum, hne, hup⟩ := hinv
  obtain ⟨k, rfl⟩ : ∃ k, t = N + k := ⟨t - N, by omega⟩
  have hcond : ¬ s.num_used < N := by omega
  have hsub : N + k - N = k := by omega
  have hmodeq : (N + k) % N = k % N := Nat.add_mod_left N k
  unfold fifoFind
  rw [if_neg hcond]
  have hvict : s.used_pages s.next_evict = toU32 (ps.getD k 0) := by
    have := hup k (by omega) (by omega)
    rw [hne, hsub]
    exact this
  refine ⟨?_, by dsimp only; omega, ?_, ?_⟩
  · rw [hvict, hsub]
  · dsimp only
    rw [hne, hsub, Nat.mod_add_mod]
    have e : N + k + 1 - N = k + 1 := by omega
    rw [e]
  · intro j hj hjN
    dsimp only
    by_cases hjt : j = N + k
    · subst hjt
      rw [hne, hsub, hmodeq, if_pos rfl, hget]
    · have hjlt : j < N + k := by omega
      have hne2 : j % N ≠ s.next_evict := by
        rw [hne, hsub, ← hmodeq]
        exact mod_ne_of_between j (N + k) N hjlt (by omega)
      rw [if_neg hne2]
      exact hup j hjlt (by omega)

/-- Running the FIFO policy over the rest of the workload preserves the
invariant and emits as victims exactly the recorded pages of the evicted
events, in recording order. -/
theorem fifoRun_inv (N : Nat) (hN : 1 ≤ N) (ps : List Nat) :
    ∀ (rest : List Nat) (t : Nat) (s : FifoState),
      rest = ps.drop t → t ≤ ps.length → FifoInv N ps t s →
      FifoInv N ps ps.length (fifoRun N s rest).1 ∧
      (fifoRun N s rest).2
        = ((ps.take (ps.length - N)).drop (t - N)).map toU32 := by
  intro rest
  induction rest with
  | nil =>
    intro t s hdrop hlen hinv
    have hge : ps.length ≤ t := by
      by_contra hcon
      have h1 : (ps.drop t).length = ps.length - t := List.length_drop t ps
      rw [← hdrop] at h1
      simp at h1
      omega
    have ht : t = ps.length := by omega
    subst ht
    refine ⟨hinv, ?_⟩
    have : (ps.take (ps.length - N)).length ≤ ps.length - N := List.length_take_le _ _
    rw [List.drop_eq_nil_of_le (by omega)]
    rfl
  | cons p rest ih =>
    intro t s hdrop hlen hinv
    have ht : t < ps.length := by
      by_contra hcon
      have : ps.drop t = [] := List.drop_eq_nil_of_le (by omega)
      rw [this] at hdrop
      exact (List.cons_ne_nil p rest) hdrop
    have hcons : ps[t] :: ps.drop (t + 1) = p :: rest := by
      rw [← List.drop_eq_getElem_cons ht]
      exact hdrop.symm
    have hget : ps.getD t 0 = p := by
      rw [List.getD_eq_getElem _ _ ht]
      exact (List.cons.injEq _ _ _ _ ▸ hcons).1
    have hdrop' : rest = ps.drop (t + 1) :=
      ((List.cons.injEq _ _ _ _ ▸ hcons).2).symm
    by_cases htN : t < N
    · obtain ⟨hv, hinv'⟩ := fifoFind_fill N ps t s p hinv htN hget
      obtain ⟨ih1, ih2⟩ := ih (t + 1) (fifoFind N s p).1 hdrop' (by omega) hinv'
      constructor
      · simp only [fifoRun, hv]
        exact ih1
      · simp only [fifoRun, hv]
        rw [ih2]
        have e : t + 1 - N = t - N := by omega
        rw [e]
    · obtain ⟨hv, hinv'⟩ :=
        fifoFind_full N ps t s p hN hinv (by omega) hget
      obtain ⟨ih1, ih2⟩ := ih (t + 1) (fifoFind N s p).1 hdrop' (by omega) hinv'
      constructor
      · simp only [fifoRun, hv]
        exact ih1
      · simp only [fifoRun, hv]
        rw [ih2]
        have hlt2 : t - N < (ps.take (ps.length - N)).length := by
          rw [List.length_take]
          omega
        have e1 : t - N + 1 = t + 1 - N := by omega
        have hlt3 : t - N < ps.length := by omega
        rw [List.drop_eq_getElem_cons hlt2, List.map_cons, e1]
        congr 1
        congr 1
        rw [List.getD_eq_getElem _ _ hlt3]
        simp

/-- C2: from an empty FIFO state, a workload of `M` distinct faulted pages
with `M ≥ N` yields exactly `M - N` evictions whose victims are the first
`M - N` pages in the exact order they were recorded; the final cursor equals
the eviction count modulo `N`; and every full-cache call evicts the current
cursor slot and advances the cursor by one modulo `N`. -/
theorem fifo_victims_in_recording_order :
    ∀ (N : Nat) (ps : List Nat), 1 ≤ N → (∀ p ∈ ps, p < U32) → ps.Nodup →
      N ≤ ps.length →
      (fifoRun N fifoInit ps).2 = ps.take (ps.length - N) ∧
      (fifoRun N fifoInit ps).2.length = ps.length - N ∧
      (fifoRun N fifoInit ps).1.next_evict = (ps.length - N) % N ∧
      (∀ (s : FifoState) (p : Nat), N ≤ s.num_used →
        (fifoFind N s p).1.next_evict = (s.next_evict + 1) % N ∧
        (fifoFind N s p).2.victim = some (s.used_pages s.next_evict)) := by
  intro N ps hN hbound hnd hlen
  have h0 : FifoInv N ps 0 fifoInit :=
    ⟨by simp [fifoInit], by simp [fifoInit], fun j hj _ => absurd hj (by omega)⟩
  obtain ⟨hinv, hvict⟩ := fifoRun_inv N hN ps ps 0 fifoInit (by simp) (by omega) h0
  have hvict2 : (fifoRun N fifoInit ps).2 = ps.take (ps.length - N) := by
    rw [hvict]
    simp only [Nat.zero_sub, List.drop_zero]
    have hid : ∀ x ∈ ps.take (ps.length - N), toU32 x = x := fun x hx =>
      Nat.mod_eq_of_lt (hbound x (List.mem_of_mem_take hx))
    rw [List.map_congr_left hid]
    simp
  refine ⟨hvict2, ?_, hinv.2.1, ?_⟩
  · rw [hvict2, List.length_take]
    omega
  · intro s p hge
    have hcond : ¬ s.num_used < N := by omega
    unfold fifoFind
    rw [if_neg hcond]
    exact ⟨rfl, rfl⟩

/-- C2 (witness): budget 2, workload `[10, 11, 12, 13]`: victims `[10, 11]`
in recording order, two evictions, final cursor `2 % 2 = 0`, and the
cursor/victim behavior of one concrete full-cache call. -/
theorem fifo_victims_in_recording_order_witness :
    (fifoRun 2 fifoInit [10, 11, 12, 13]).2 = [10, 11] ∧
    (fifoRun 2 fifoInit [10, 11, 12, 13]).2.length = 2 ∧
    (fifoRun 2 fifoInit [10, 11, 12, 13]).1.next_evict = 0 ∧
    (fifoFind 2 fifoStEx 99).1.next_evict = 1 ∧
    (fifoFind 2 fifoStEx 99).2.victim = some 10 :=
  let h := fifo_victims_in_recording_order 2 [10, 11, 12, 13] (by decide)
    (by decide) (by decide) (by decide)
  let h4 := h.2.2.2 fifoStEx 99 (by decide)
  ⟨h.1, h.2.1, h.2.2.1, h4.1, by rw [h4.2]; rfl⟩

end JumboMem
